import Mathlib

/-!
Verification of the ipssl-client certificate renewal daemon.

The Go sources are shallowly embedded: instants and durations are `Int`
nanoseconds, the filesystem is an explicit association list from path to
content and permission bits, external API calls are modelled by event
lists or oracles supplied as parameters, and fallible operations return
`Except`.
-/

namespace IpsslClient

/-! ### Filesystem model -/

/-- One file on disk: path, full contents, permission bits. -/
structure FSEntry where
  path : String
  content : String
  perm : Nat
deriving DecidableEq, Repr

/-- Filesystem state: list of files, most recent write first. -/
structure FSState where
  files : List FSEntry
deriving DecidableEq, Repr

/-- `os.WriteFile`: create or overwrite the file at `p`. -/
def fsWrite (fs : FSState) (p c : String) (perm : Nat) : FSState :=
  ⟨⟨p, c, perm⟩ :: fs.files.filter (fun e => e.path ≠ p)⟩

/-- `os.Stat`: the entry at path `p`, if the file exists. -/
def fsStat (fs : FSState) (p : String) : Option FSEntry :=
  fs.files.find? (fun e => e.path = p)

/-- The contents of the file at `p`, if it exists. -/
def fsRead (fs : FSState) (p : String) : Option String :=
  (fsStat fs p).map (fun e => e.content)

/-! ### Go `path/filepath` (unix): `Clean`, `Join`, `Base`, `Dir` -/

/-- Stack pass of `filepath.Clean`: process the slash-separated components
left to right, dropping empty and dot components, resolving dot-dot by
popping (kept when unrooted and nothing can be popped, dropped when
rooted and the stack is empty). `acc` is the stack, most recent first. -/
def cleanCompsAux (rooted : Bool) : List String → List String → List String
  | acc, [] => acc.reverse
  | acc, c :: rest =>
    if c = "" ∨ c = "." then cleanCompsAux rooted acc rest
    else if c = ".." then
      match acc with
      | [] => if rooted then cleanCompsAux rooted [] rest
              else cleanCompsAux rooted [".."] rest
      | a :: as =>
        if a = ".." then cleanCompsAux rooted (".." :: a :: as) rest
        else cleanCompsAux rooted as rest
    else cleanCompsAux rooted (c :: acc) rest

/-- Split a character list on slashes; mirrors splitting a string on
the slash separator, the empty input giving one empty component. -/
def splitSlash : List Char → List (List Char)
  | [] => [[]]
  | c :: rest =>
    let r := splitSlash rest
    if c = '/' then [] :: r
    else match r with
      | g :: gs => (c :: g) :: gs
      | [] => [[c]]

/-- `filepath.Clean` for unix paths. -/
def filepathClean (path : String) : String :=
  if path = "" then "."
  else
    let rooted := match path.data with | '/' :: _ => true | _ => false
    let comps := cleanCompsAux rooted [] ((splitSlash path.data).map String.mk)
    let body := String.intercalate "/" comps
    if rooted then (if body = "" then "/" else "/" ++ body)
    else (if body = "" then "." else body)

/-- `filepath.Join`: drop leading empty elements, join the rest with
slashes, and clean the result; all-empty input gives the empty path. -/
def filepathJoin (elems : List String) : String :=
  match elems.dropWhile (fun e => e = "") with
  | [] => ""
  | rest => filepathClean (String.intercalate "/" rest)

/-- `filepath.Base`: last element of the path after trailing slashes are
removed; the empty path gives a dot and an all-slash path gives a slash. -/
def filepathBase (path : String) : String :=
  if path = "" then "."
  else
    let cs := path.data.reverse.dropWhile (fun c => c = '/')
    let base := (cs.takeWhile (fun c => c ≠ '/')).reverse
    if base.isEmpty then "/" else String.mk base

/-- `filepath.Dir`: everything up to and including the final slash,
cleaned; a path with no slash gives a dot. -/
def filepathDir (path : String) : String :=
  let rest := path.data.reverse.dropWhile (fun c => c ≠ '/')
  filepathClean (String.mk rest.reverse)

/-! ### `IsCertificateValid` (zerossl client)

Reading and parsing the certificate file is abstracted into a `CertFile`
input: the three failure shapes of the source (unreadable file, PEM
decode failure, x509 parse failure) and a parsed certificate carrying
its `NotAfter` instant. -/

/-- Outcome of reading and parsing the certificate file. -/
inductive CertFile
  | missing
  | badPEM
  | badCert
  | cert (notAfter : Int)
deriving DecidableEq, Repr

/-- `IsCertificateValid(certPath, validityDuration)` at instant `now`:
read and parse the file, report false when `now` is after `NotAfter` or
when `NotAfter` is before `now` plus the validity duration. -/
def IsCertificateValid (file : CertFile) (now validityDuration : Int) :
    Except String Bool :=
  match file with
  | .missing => .error "failed to read certificate file"
  | .badPEM => .error "failed to decode PEM block"
  | .badCert => .error "failed to parse certificate"
  | .cert notAfter =>
    if notAfter < now then .ok false
    else if notAfter < now + validityDuration then .ok false
    else .ok true

/-! ### Renewal scheduler: `Start` (ipssl client)

The scheduler is driven by an event list: each event is either the
cancellation signal firing or an interval tick, a tick carrying the
observed certificate validity and whether the renewal attempt made on
an invalid certificate would succeed. -/

/-- One observation delivered to the renewal loop. -/
inductive SchedulerEvent
  | cancel
  | tick (certValid : Bool) (renewOk : Bool)
deriving DecidableEq, Repr

/-- How `Start` ended, or that it is still looping when the supplied
event list ran out. -/
inductive StartOutcome
  | failedEnsureDirs
  | failedStartupRenew
  | cancelledOutcome
  | running
deriving DecidableEq, Repr

/-- The ticker loop of `Start`: on cancellation return the context
error; on a tick with an invalid certificate attempt a renewal, and on
renewal failure log the error and continue. The second component counts
logged renewal failures. -/
def runRenewalLoop : List SchedulerEvent → StartOutcome × Nat
  | [] => (.running, 0)
  | .cancel :: _ => (.cancelledOutcome, 0)
  | .tick certValid renewOk :: rest =>
    let r := runRenewalLoop rest
    if certValid then r
    else if renewOk then r
    else (r.1, r.2 + 1)

/-- `Start`: ensure directories, then check validity once at startup and
request a certificate when invalid, returning the error on failure; then
enter the ticker loop. -/
def Start (ensureDirsOk startupValid startupRenewOk : Bool)
    (events : List SchedulerEvent) : StartOutcome × Nat :=
  if ensureDirsOk then
    if startupValid then runRenewalLoop events
    else if startupRenewOk then runRenewalLoop events
    else (.failedStartupRenew, 0)
  else (.failedEnsureDirs, 0)

/-! ### Issuance poller: `waitForCertificateIssuance` (zerossl client)

Each iteration either observes the cancellation signal, a failed status
fetch, or a fetched status string. -/

/-- One observation delivered to the poll loop. -/
inductive PollEvent
  | cancel
  | fetchErr
  | fetched (status : String)
deriving DecidableEq, Repr

/-- How the poll loop ended, or that it is still polling when the
supplied event list ran out. -/
inductive PollOutcome
  | issuedCert (certID status : String)
  | failedStatus (certID status : String)
  | cancelledOutcome
  | polling
deriving DecidableEq, Repr

/-- `waitForCertificateIssuance(certID)`: on cancellation return the
context error; on a fetch error log and continue; on status issued
return the certificate, on cancelled or expired fail naming the status,
and on anything else (draft, pending_validation, or unknown) continue. -/
def waitForCertificateIssuance (certID : String) :
    List PollEvent → PollOutcome
  | [] => .polling
  | .cancel :: _ => .cancelledOutcome
  | .fetchErr :: rest => waitForCertificateIssuance certID rest
  | .fetched s :: rest =>
    if s = "issued" then .issuedCert certID s
    else if s = "cancelled" ∨ s = "expired" then .failedStatus certID s
    else waitForCertificateIssuance certID rest

/-- Spec-side reading of the poll loop (for refinement): the outcome a
single event decides, if any. Success, terminal failure and cancellation
are decisive; fetch errors and non-terminal statuses are not. -/
def decisiveOutcome (certID : String) : PollEvent → Option PollOutcome
  | .cancel => some .cancelledOutcome
  | .fetchErr => none
  | .fetched s =>
    if s = "issued" then some (.issuedCert certID s)
    else if s = "cancelled" ∨ s = "expired" then some (.failedStatus certID s)
    else none

/-- Spec-side reading of the poll loop: scan for the first decisive
event; with none, the loop is still polling. -/
def pollLoopSpec (certID : String) (events : List PollEvent) : PollOutcome :=
  match events.findSome? (decisiveOutcome certID) with
  | some o => o
  | none => .polling

/-! ### Validation file writer and `ValidateCertificate` (zerossl client) -/

/-- Validation payload of one method: content tokens and target URL. -/
structure ValidationMethodData where
  fileValidationContent : List String
  fileValidationURLHTTP : String
deriving DecidableEq, Repr

/-- Certificate details returned by the authority. The two nil checks of
the source (nil validation, nil method map) are collapsed into one
`Option`; the method map is a list in encounter order. -/
structure CertificateDetails where
  id : String
  status : String
  commonName : String
  validationOtherMethods : Option (List (String × ValidationMethodData))
deriving DecidableEq, Repr

/-- The joined validation content: the source appends a newline before
every token but the first. -/
def joinValidationContent (parts : List String) : String :=
  parts.enum.foldl
    (fun acc p => (if 0 < p.1 then acc ++ "\n" else acc) ++ p.2) ""

/-- Observable calls made by `ValidateCertificate`, in order. -/
inductive VAction
  | getCertificateCall
  | verifyCall
  | getUpdatedCertificateCall
  | mkdirCall (dir : String)
  | writeCall (path content : String)
deriving DecidableEq, Repr

/-- One write phase of `ValidateCertificate`: for each method with a
non-empty content list, join the tokens, name the file after the base of
the validation URL, create the directory and write the file, stopping
with the filesystem error on the first failure; methods with no content
are skipped. Returns the result, the filesystem after the successful
writes, and the trace of performed calls. -/
def writeValidationFiles (validationDir : String)
    (mkdirOk writeOk : String → Bool) (fs : FSState) :
    List (String × ValidationMethodData) →
    Except String Unit × FSState × List VAction
  | [] => (.ok (), fs, [])
  | (_, validation) :: rest =>
    if 0 < validation.fileValidationContent.length then
      let validationContent := joinValidationContent validation.fileValidationContent
      let filename := filepathBase validation.fileValidationURLHTTP
      let validationPath :=
        filepathJoin [validationDir, ".well-known", "pki-validation", filename]
      if mkdirOk (filepathDir validationPath) then
        if writeOk validationPath then
          let r := writeValidationFiles validationDir mkdirOk writeOk
            (fsWrite fs validationPath validationContent 0o644) rest
          (r.1, r.2.1,
            .mkdirCall (filepathDir validationPath)
              :: .writeCall validationPath validationContent :: r.2.2)
        else (.error "failed to write validation file", fs,
          [.mkdirCall (filepathDir validationPath)])
      else (.error "failed to create validation directory", fs, [])
    else writeValidationFiles validationDir mkdirOk writeOk fs rest

/-- External behaviour surrounding one `ValidateCertificate` call: the
two status fetches, whether triggering validation succeeds (its failure
is only logged), and the filesystem oracles. -/
structure ValidateEnv where
  getCert1 : Except String CertificateDetails
  verifyOk : Bool
  getCert2 : Except String CertificateDetails
  mkdirOk : String → Bool
  writeOk : String → Bool

/-- `ValidateCertificate(certID, validationDir)`: fetch details, write
validation files from them (a filesystem failure returns immediately),
trigger validation (failure logged only), fetch updated details, and
write validation files again from the updated details. Returns the
result, the final filesystem, and the trace of calls. -/
def ValidateCertificate (env : ValidateEnv) (validationDir : String)
    (fs : FSState) : Except String Unit × FSState × List VAction :=
  match env.getCert1 with
  | .error _ => (.error "failed to get certificate details", fs,
      [.getCertificateCall])
  | .ok certDetails =>
    let phase1 :=
      match certDetails.validationOtherMethods with
      | some methods => writeValidationFiles validationDir env.mkdirOk env.writeOk fs methods
      | none => (.ok (), fs, [])
    match phase1 with
    | (.error e, fs1, tr1) => (.error e, fs1, .getCertificateCall :: tr1)
    | (.ok _, fs1, tr1) =>
      match env.getCert2 with
      | .error _ => (.error "failed to get updated certificate details", fs1,
          .getCertificateCall :: tr1 ++ [.verifyCall, .getUpdatedCertificateCall])
      | .ok updatedCertDetails =>
        let phase2 :=
          match updatedCertDetails.validationOtherMethods with
          | some methods => writeValidationFiles validationDir env.mkdirOk env.writeOk fs1 methods
          | none => (.ok (), fs1, [])
        (phase2.1, phase2.2.1,
          .getCertificateCall :: tr1
            ++ [.verifyCall, .getUpdatedCertificateCall] ++ phase2.2.2)

/-! ### Configuration loading (config package) -/

/-- One nanosecond of `time.Duration`, as `Int`. -/
def nanosecond : Int := 1

/-- One hour of `time.Duration` in nanoseconds. -/
def hour : Int := 3600 * 1000000000

/-- The configuration snapshot. -/
structure Config where
  clientIP : String
  apiKey : String
  validationDir : String
  sslDir : String
  containerName : String
  renewalInterval : Int
  certValidity : Int
deriving DecidableEq, Repr

/-- `getEnv`: the environment value when non-empty, else the default.
The environment maps unset keys to the empty string, as `os.Getenv`. -/
def getEnv (env : String → String) (key defaultValue : String) : String :=
  if env key ≠ "" then env key else defaultValue

/-- `getDurationEnv`: the parsed environment value when non-empty and
parseable as a duration, else the default. `parse` abstracts the
standard-library duration parser, returning none on malformed input. -/
def getDurationEnv (parse : String → Option Int) (env : String → String)
    (key : String) (defaultValue : Int) : Int :=
  if env key ≠ "" then
    match parse (env key) with
    | some duration => duration
    | none => defaultValue
  else defaultValue

/-- `config.Load`: build the snapshot from the environment, with the
defaults of the source, failing when the API key is absent. -/
def Load (parse : String → Option Int) (env : String → String) :
    Except String Config :=
  let cfg : Config :=
    { clientIP := getEnv env "CLIENT_IP" "127.0.0.1"
      apiKey := getEnv env "IPSSL_API_KEY" ""
      validationDir := getEnv env "IPSSL_VALIDATION_DIR" "/usr/share/caddy/"
      sslDir := getEnv env "IPSSL_SSL_DIR" "/ipssl/"
      containerName := getEnv env "IPSSL_CONTAINER_NAME" "caddy-1"
      renewalInterval := getDurationEnv parse env "RENEWAL_INTERVAL" (24 * hour)
      certValidity := getDurationEnv parse env "CERT_VALIDITY" (30 * 24 * hour) }
  if cfg.apiKey = "" then .error "IPSSL_API_KEY environment variable is required"
  else .ok cfg

/-- The validation directory computed inside `RequestCertificate` on
each renewal attempt: read from the environment at call time, with the
same default as the snapshot. -/
def requestCertificateValidationDir (env : String → String) : String :=
  let validationDir := env "IPSSL_VALIDATION_DIR"
  if validationDir = "" then "/usr/share/caddy/" else validationDir

/-! ### Certificate download bundle (zerossl client) -/

/-- The downloaded bundle: leaf certificate and intermediate chain, the
empty string standing for an absent part. -/
structure CertificateBundle where
  certificateCrt : String
  caBundleCrt : String
deriving DecidableEq, Repr

/-- The literal second argument `RequestCertificate` passes to
`DownloadCertificate`, requesting cross-signed intermediates. -/
def downloadWithCrossSigned : Bool := true

/-- The chain concatenation of `RequestCertificate`: start from the leaf
when present; when the chain is present, first append a newline if the
accumulator is non-empty, then append the chain. -/
def combineFullCertChain (b : CertificateBundle) : String :=
  let fullCertChain := if b.certificateCrt ≠ "" then b.certificateCrt else ""
  if b.caBundleCrt ≠ "" then
    (if fullCertChain ≠ "" then fullCertChain ++ "\n" else fullCertChain)
      ++ b.caBundleCrt
  else fullCertChain

/-! ### Existing-request lookup: `findExistingCertificate` (zerossl client) -/

/-- One item of the authority request listing. -/
structure CertificateListItem where
  id : String
  commonName : String
  status : String
deriving DecidableEq, Repr

/-- `findExistingCertificate(ip)` over a successfully fetched listing:
scan in order for an item whose common name equals the IP; return its id
when the status is issued, pending_validation or draft, otherwise skip
it and continue; the empty string means none found. -/
def findExistingCertificate (ip : String) : List CertificateListItem → String
  | [] => ""
  | cert :: rest =>
    if cert.commonName = ip then
      if cert.status = "issued" ∨ cert.status = "pending_validation"
          ∨ cert.status = "draft" then cert.id
      else findExistingCertificate ip rest
    else findExistingCertificate ip rest

/-- Spec-side reading of the lookup (for refinement): an item qualifies
when its subject matches the IP and its status is one of the three
accepted ones. -/
def qualifiesForReuse (ip : String) (c : CertificateListItem) : Bool :=
  c.commonName = ip ∧ (c.status = "issued" ∨ c.status = "pending_validation"
    ∨ c.status = "draft")

/-- Spec-side reading of the lookup: the id of the first qualifying item
in encounter order, or the empty string. -/
def findExistingSpec (ip : String) (certs : List CertificateListItem) : String :=
  match certs.find? (qualifiesForReuse ip) with
  | some c => c.id
  | none => ""

/-! ### Certificate store: `requestCertificate` persist step and
`certificateFilesExist` (ipssl client) -/

/-- The persist step of `requestCertificate`: write the certificate
bytes with permission 0644 and the key bytes with permission 0600 to
the configured paths, overwriting existing files; a write failure is a
filesystem error. -/
def persistCertificate (writeOk : String → Bool) (fs : FSState)
    (sslDir cert key : String) : Except String FSState :=
  let certPath := filepathJoin [sslDir, "cert.pem"]
  let keyPath := filepathJoin [sslDir, "key.pem"]
  if writeOk certPath then
    let fs1 := fsWrite fs certPath cert 0o644
    if writeOk keyPath then .ok (fsWrite fs1 keyPath key 0o600)
    else .error "failed to save private key"
  else .error "failed to save certificate"

/-- `certificateFilesExist`: both files present at their configured
paths, with the reason string of the source. -/
def certificateFilesExist (fs : FSState) (sslDir : String) : Bool × String :=
  let certPath := filepathJoin [sslDir, "cert.pem"]
  let keyPath := filepathJoin [sslDir, "key.pem"]
  if (fsStat fs certPath).isNone then (false, "certificate file missing")
  else if (fsStat fs keyPath).isNone then (false, "private key file missing")
  else (true, "both files exist")

/-! ### Spec-side join and concrete scenarios -/

/-- Spec-side reading of the content join: a single newline before each
token after the first. -/
def newlineTail : List String → String
  | [] => ""
  | x :: rest => "\n" ++ x ++ newlineTail rest

/-- Spec-side reading of the content join: the tokens separated by
single newlines. -/
def newlineJoined : List String → String
  | [] => ""
  | x :: rest => x ++ newlineTail rest

/-- A validation scenario in which every file write fails: the first
status fetch returns one method with one token, directories can be
created, writes cannot. -/
def failingWriteEnv : ValidateEnv where
  getCert1 := .ok
    { id := "abc123", status := "draft", commonName := "203.0.113.7",
      validationOtherMethods := some [("203.0.113.7",
        { fileValidationContent := ["tok"],
          fileValidationURLHTTP := "http://h/.well-known/pki-validation/F" })] }
  verifyOk := true
  getCert2 := .ok
    { id := "abc123", status := "draft", commonName := "203.0.113.7",
      validationOtherMethods := none }
  mkdirOk := fun _ => true
  writeOk := fun _ => false

/-- The environment at startup in the configuration scenario: API key
set, validation directory `/a`. -/
def envAtStartup : String → String := fun k =>
  if k = "IPSSL_API_KEY" then "k"
  else if k = "IPSSL_VALIDATION_DIR" then "/a" else ""

/-- The environment at a later renewal attempt in the configuration
scenario: same API key, validation directory changed to `/b`. -/
def envAtRenewal : String → String := fun k =>
  if k = "IPSSL_API_KEY" then "k"
  else if k = "IPSSL_VALIDATION_DIR" then "/b" else ""

/-! ## Theorems -/

/-- A filter applied again around an inner filter changes nothing. -/
theorem filter_outer_absorb {α : Type} (p q : α → Bool) (l : List α) :
    ((l.filter p).filter q).filter p = (l.filter p).filter q := by
  simp only [List.filter_filter]
  congr 1
  funext a
  cases p a <;> cases q a <;> rfl

/-- Filtering twice with the same predicate filters once. -/
theorem filter_idem {α : Type} (p : α → Bool) (l : List α) :
    (l.filter p).filter p = l.filter p := by
  simp only [List.filter_filter]
  congr 1
  funext a
  cases p a <;> rfl

/-- The join of the source (newline appended before every token after
the first) is the spec-side newline join. -/
theorem joinValidationContent_eq_newlineJoined (parts : List String) :
    joinValidationContent parts = newlineJoined parts := by
  have aux : ∀ (rest : List String) (n : Nat) (acc : String),
      (List.enumFrom (n + 1) rest).foldl
        (fun acc p => (if 0 < p.1 then acc ++ "\n" else acc) ++ p.2) acc
        = acc ++ newlineTail rest := by
    intro rest
    induction rest with
    | nil => intro n acc; simp [newlineTail]
    | cons y ys ih =>
      intro n acc
      simp only [List.enumFrom, List.foldl, newlineTail]
      rw [if_pos (Nat.succ_pos n), ih (n + 1)]
      simp [String.append_assoc]
  cases parts with
  | nil => rfl
  | cons x rest =>
    simp only [joinValidationContent, newlineJoined, List.enum, List.enumFrom,
      List.foldl]
    rw [if_neg (by omega)]
    have h0 : ("" : String) ++ x = x := rfl
    rw [h0, aux rest 0 x]

/-- Claim C1, counterexample: at the exact boundary NotAfter = now +
threshold (now 0, threshold 10, NotAfter 10) the validity check returns
true, while the claim requires it to return false there. -/
theorem C1_boundary_counterexample :
    IsCertificateValid (CertFile.cert 10) 0 10 = Except.ok true ∧
      (10 : Int) = 0 + 10 := by
  constructor
  · rfl
  · norm_num

/-- Claim C1 amended: the validity check returns true iff the file
parses as a well-formed leaf certificate, the current time is at or
before NotAfter, and the current time plus the threshold is at or
before NotAfter; in particular at the exact boundary NotAfter = now +
threshold it returns true, and it returns false only when NotAfter lies
strictly within the threshold of now or strictly in the past. -/
theorem C1_isCertificateValid_characterisation (file : CertFile) (now d : Int) :
    IsCertificateValid file now d = Except.ok true ↔
      ∃ na, file = CertFile.cert na ∧ now ≤ na ∧ now + d ≤ na := by
  cases file with
  | missing => simp [IsCertificateValid]
  | badPEM => simp [IsCertificateValid]
  | badCert => simp [IsCertificateValid]
  | cert na =>
    simp only [IsCertificateValid]
    constructor
    · intro h
      refine ⟨na, rfl, ?_⟩
      by_cases h1 : na < now
      · simp [h1] at h
      · by_cases h2 : na < now + d
        · simp [h1, h2] at h
        · omega
    · rintro ⟨na', hna, h1, h2⟩
      cases hna
      have g1 : ¬ na < now := by omega
      have g2 : ¬ na < now + d := by omega
      simp [g1, g2]

/-- Claim C2, counterexample: with directory setup succeeding, the
certificate invalid at startup and the startup renewal attempt failing,
`Start` terminates with the startup failure and never reaches the tick
loop, while the claim requires the startup attempt failure to be caught
and the loop to continue. -/
theorem C2_startup_failure_counterexample :
    Start true false false [SchedulerEvent.tick true true]
      = (StartOutcome.failedStartupRenew, 0) := by
  rfl

/-- Claim C2 amended: a failure in a renewal attempt triggered by an
interval tick is logged and the loop continues waiting for the next
tick, so the tick loop only ever ends by cancellation or by exhausting
its events; but a failure of the renewal attempt made at startup
propagates out of `Start` and terminates the scheduler. -/
theorem C2_tick_failures_never_terminate (events : List SchedulerEvent) :
    ((runRenewalLoop events).1 = StartOutcome.cancelledOutcome ∨
      (runRenewalLoop events).1 = StartOutcome.running) ∧
    runRenewalLoop (SchedulerEvent.tick false false :: events)
      = ((runRenewalLoop events).1, (runRenewalLoop events).2 + 1) ∧
    (∀ ensureDirsOk startupValid startupRenewOk : Bool,
      Start ensureDirsOk startupValid startupRenewOk events
        = (StartOutcome.failedStartupRenew, 0) ∨
      Start ensureDirsOk startupValid startupRenewOk events
        = (StartOutcome.failedEnsureDirs, 0) ∨
      Start ensureDirsOk startupValid startupRenewOk events
        = runRenewalLoop events) := by
  refine ⟨?_, rfl, ?_⟩
  · induction events with
    | nil => simp [runRenewalLoop]
    | cons e rest ih =>
      cases e with
      | cancel => simp [runRenewalLoop]
      | tick v r =>
        cases v <;> cases r <;> simpa [runRenewalLoop] using ih
  · intro eo sv sr
    cases eo <;> cases sv <;> cases sr <;> simp [Start]

/-- Claim C3: the issuance poll loop is exactly a scan for the first
decisive event — it returns the certificate when a fetched status is
issued, fails naming the status when a fetched status is cancelled or
expired, exits with the cancellation outcome when the signal fires, and
on every fetch error or other status continues polling; with no
decisive event it is still polling. -/
theorem C3_poll_loop_refines_spec (certID : String) (events : List PollEvent) :
    waitForCertificateIssuance certID events = pollLoopSpec certID events := by
  induction events with
  | nil => rfl
  | cons e rest ih =>
    cases e with
    | cancel => rfl
    | fetchErr =>
      simpa [waitForCertificateIssuance, pollLoopSpec, decisiveOutcome] using ih
    | fetched s =>
      by_cases h1 : s = "issued"
      · simp [waitForCertificateIssuance, pollLoopSpec, decisiveOutcome, h1]
      · by_cases h2 : s = "cancelled" ∨ s = "expired"
        · simp [waitForCertificateIssuance, pollLoopSpec, decisiveOutcome, h1, h2]
        · simpa [waitForCertificateIssuance, pollLoopSpec, decisiveOutcome, h1, h2]
            using ih

/-- A write phase never performs a status fetch: its trace holds only
directory and file operations. -/
theorem getUpdated_not_in_writePhase (validationDir : String)
    (mkdirOk writeOk : String → Bool) (fs : FSState)
    (ms : List (String × ValidationMethodData)) :
    VAction.getUpdatedCertificateCall
      ∉ (writeValidationFiles validationDir mkdirOk writeOk fs ms).2.2 := by
  induction ms generalizing fs with
  | nil => simp [writeValidationFiles]
  | cons m rest ih =>
    obtain ⟨name, validation⟩ := m
    unfold writeValidationFiles
    by_cases hc : 0 < validation.fileValidationContent.length
    · by_cases hm : mkdirOk (filepathDir (filepathJoin [validationDir,
          ".well-known", "pki-validation",
          filepathBase validation.fileValidationURLHTTP]))
      · by_cases hw : writeOk (filepathJoin [validationDir, ".well-known",
            "pki-validation", filepathBase validation.fileValidationURLHTTP])
        · simp only [hc, if_true, hm, hw]
          simp [List.mem_cons, ih]
        · simp [hc, hm, hw]
      · simp [hc, hm]
    · simp only [hc, if_false]
      exact ih fs

/-- Claim C4, counterexample: in a concrete validation attempt in which
writing the validation file fails, the orchestration returns the
filesystem error immediately and never fetches the updated request
status, while the claim requires it to still fetch the updated status
before giving up. -/
theorem C4_no_updated_fetch_counterexample :
    (ValidateCertificate failingWriteEnv "/data" ⟨[]⟩).1
        = Except.error "failed to write validation file" ∧
      VAction.getUpdatedCertificateCall
        ∉ (ValidateCertificate failingWriteEnv "/data" ⟨[]⟩).2.2 := by
  constructor
  · rfl
  · decide

/-- Claim C4 amended: when creating the validation directory or writing
a validation file fails during the initial write phase, the
orchestration reports the filesystem error for the current attempt and
gives up immediately, without fetching the updated request status; only
trigger-validation failures are tolerated with a subsequent status
fetch. -/
theorem C4_fs_failure_aborts (env : ValidateEnv) (validationDir : String)
    (fs : FSState) (d : CertificateDetails)
    (ms : List (String × ValidationMethodData)) (e : String)
    (h1 : env.getCert1 = Except.ok d)
    (h2 : d.validationOtherMethods = some ms)
    (h3 : (writeValidationFiles validationDir env.mkdirOk env.writeOk fs ms).1
        = Except.error e) :
    (ValidateCertificate env validationDir fs).1 = Except.error e ∧
      VAction.getUpdatedCertificateCall
        ∉ (ValidateCertificate env validationDir fs).2.2 := by
  have hnot := getUpdated_not_in_writePhase validationDir env.mkdirOk
    env.writeOk fs ms
  unfold ValidateCertificate
  rw [h1]
  simp only [h2]
  rcases hw : writeValidationFiles validationDir env.mkdirOk env.writeOk fs ms
    with ⟨r, fs1, tr1⟩
  rw [hw] at h3 hnot
  simp only at h3 hnot
  cases r with
  | error e' =>
    cases h3
    refine ⟨rfl, ?_⟩
    simp [List.mem_cons, hnot]
  | ok u => cases h3

/-- Claim C4 witness: the amended theorem applied to the concrete
failing-write scenario. -/
theorem C4_fs_failure_aborts_witness :
    (failingWriteEnv.getCert1 = Except.ok
      { id := "abc123", status := "draft", commonName := "203.0.113.7",
        validationOtherMethods := some [("203.0.113.7",
          { fileValidationContent := ["tok"],
            fileValidationURLHTTP := "http://h/.well-known/pki-validation/F" })] }) ∧
    ((ValidateCertificate failingWriteEnv "/data" ⟨[]⟩).1
        = Except.error "failed to write validation file" ∧
      VAction.getUpdatedCertificateCall
        ∉ (ValidateCertificate failingWriteEnv "/data" ⟨[]⟩).2.2) :=
  ⟨rfl, C4_fs_failure_aborts failingWriteEnv "/data" ⟨[]⟩ _ _ _ rfl rfl rfl⟩

/-- Claim C5, counterexample: the snapshot loaded at startup records
validation directory `/a`, yet a renewal attempt made after the
environment changed to `/b` uses `/b` — the validation directory is
re-read from the environment inside the renewal path, while the claim
requires every parameter to come from the startup snapshot. -/
theorem C5_env_reread_counterexample :
    (Load (fun _ => none) envAtStartup).map Config.validationDir
        = Except.ok "/a" ∧
      requestCertificateValidationDir envAtRenewal = "/b" ∧
      ("/b" : String) ≠ "/a" := by
  refine ⟨rfl, rfl, by decide⟩

/-- Claim C5 amended: every operating parameter of the snapshot is a
pure function of the environment at load time and is never mutated, but
the validation directory used by the authority client during a renewal
attempt is re-read from `IPSSL_VALIDATION_DIR` at that moment, with the
same default, rather than taken from the snapshot. -/
theorem C5_snapshot_except_validationDir (parse : String → Option Int)
    (envLoad envRenew : String → String) (cfg : Config)
    (h : Load parse envLoad = Except.ok cfg) :
    requestCertificateValidationDir envRenew
        = getEnv envRenew "IPSSL_VALIDATION_DIR" "/usr/share/caddy/" ∧
      cfg.clientIP = getEnv envLoad "CLIENT_IP" "127.0.0.1" ∧
      cfg.apiKey = getEnv envLoad "IPSSL_API_KEY" "" ∧
      cfg.validationDir = getEnv envLoad "IPSSL_VALIDATION_DIR" "/usr/share/caddy/" ∧
      cfg.sslDir = getEnv envLoad "IPSSL_SSL_DIR" "/ipssl/" ∧
      cfg.containerName = getEnv envLoad "IPSSL_CONTAINER_NAME" "caddy-1" ∧
      cfg.renewalInterval
        = getDurationEnv parse envLoad "RENEWAL_INTERVAL" (24 * hour) ∧
      cfg.certValidity
        = getDurationEnv parse envLoad "CERT_VALIDITY" (30 * 24 * hour) := by
  have hdir : requestCertificateValidationDir envRenew
      = getEnv envRenew "IPSSL_VALIDATION_DIR" "/usr/share/caddy/" := by
    unfold requestCertificateValidationDir getEnv
    by_cases hv : envRenew "IPSSL_VALIDATION_DIR" = "" <;> simp [hv]
  unfold Load at h
  simp only at h
  split at h
  · cases h
  · cases h
    exact ⟨hdir, rfl, rfl, rfl, rfl, rfl, rfl, rfl⟩

/-- Claim C5 witness: the amended theorem applied to the concrete
startup environment, with the changed environment at renewal time. -/
theorem C5_snapshot_except_validationDir_witness :
    (Load (fun _ => none) envAtStartup = Except.ok
      { clientIP := "127.0.0.1", apiKey := "k", validationDir := "/a",
        sslDir := "/ipssl/", containerName := "caddy-1",
        renewalInterval := 24 * hour, certValidity := 30 * 24 * hour }) ∧
    requestCertificateValidationDir envAtRenewal
      = getEnv envAtRenewal "IPSSL_VALIDATION_DIR" "/usr/share/caddy/" :=
  ⟨rfl, (C5_snapshot_except_validationDir (fun _ => none) envAtStartup
    envAtRenewal _ rfl).1⟩

/-- Claim C6: for a validation method with a non-empty token list, the
writer joins the tokens with single newlines, names the file after the
last path segment of the target URL, and records exactly that content
at `<validationDir>/.well-known/pki-validation/<filename>` after
ensuring the directory; a method with zero tokens writes nothing and
raises no error. -/
theorem C6_validation_file_writer (validationDir methodName url : String)
    (tokens : List String) (fs : FSState) (mkdirOk writeOk : String → Bool)
    (hne : tokens ≠ [])
    (hmk : mkdirOk (filepathDir (filepathJoin [validationDir, ".well-known",
      "pki-validation", filepathBase url])) = true)
    (hwr : writeOk (filepathJoin [validationDir, ".well-known",
      "pki-validation", filepathBase url]) = true) :
    writeValidationFiles validationDir mkdirOk writeOk fs
        [(methodName, ⟨tokens, url⟩)]
      = (Except.ok (),
         fsWrite fs (filepathJoin [validationDir, ".well-known",
           "pki-validation", filepathBase url]) (newlineJoined tokens) 0o644,
         [VAction.mkdirCall (filepathDir (filepathJoin [validationDir,
            ".well-known", "pki-validation", filepathBase url])),
          VAction.writeCall (filepathJoin [validationDir, ".well-known",
            "pki-validation", filepathBase url]) (newlineJoined tokens)]) ∧
    writeValidationFiles validationDir mkdirOk writeOk fs
        [(methodName, ⟨[], url⟩)]
      = (Except.ok (), fs, []) := by
  constructor
  · have hlen : 0 < tokens.length := List.length_pos.mpr hne
    unfold writeValidationFiles
    simp only [hlen, if_true, hmk, hwr, if_true,
      joinValidationContent_eq_newlineJoined]
    rfl
  · rfl

/-- Claim C6 witness: tokens abc and def with a URL ending in XYZ123
yield the file XYZ123 under the pki-validation directory containing
exactly abc, a newline, and def. -/
theorem C6_validation_file_writer_witness :
    (["abc", "def"] ≠ ([] : List String)) ∧
    (writeValidationFiles "/data" (fun _ => true) (fun _ => true) ⟨[]⟩
        [("1.2.3.4", ⟨["abc", "def"],
          "http://example.com/.well-known/pki-validation/XYZ123"⟩)]).1
      = Except.ok () ∧
    fsRead (writeValidationFiles "/data" (fun _ => true) (fun _ => true) ⟨[]⟩
        [("1.2.3.4", ⟨["abc", "def"],
          "http://example.com/.well-known/pki-validation/XYZ123"⟩)]).2.1
        "/data/.well-known/pki-validation/XYZ123"
      = some "abc\ndef" ∧
    writeValidationFiles "/data" (fun _ => true) (fun _ => true) ⟨[]⟩
        [("1.2.3.4", ⟨["abc", "def"],
          "http://example.com/.well-known/pki-validation/XYZ123"⟩)]
      = (Except.ok (),
         fsWrite ⟨[]⟩ (filepathJoin ["/data", ".well-known",
           "pki-validation", filepathBase
             "http://example.com/.well-known/pki-validation/XYZ123"])
           (newlineJoined ["abc", "def"]) 0o644,
         [VAction.mkdirCall (filepathDir (filepathJoin ["/data",
            ".well-known", "pki-validation", filepathBase
              "http://example.com/.well-known/pki-validation/XYZ123"])),
          VAction.writeCall (filepathJoin ["/data", ".well-known",
            "pki-validation", filepathBase
              "http://example.com/.well-known/pki-validation/XYZ123"])
            (newlineJoined ["abc", "def"])]) := by
  refine ⟨by decide, rfl, by decide,
    (C6_validation_file_writer "/data" "1.2.3.4"
      "http://example.com/.well-known/pki-validation/XYZ123" ["abc", "def"]
      ⟨[]⟩ (fun _ => true) (fun _ => true) (by decide) rfl rfl).1⟩

/-- Claim C7: the issued bundle is always requested with cross-signed
intermediates included, and the combined chain is the leaf and the
intermediate chain joined by exactly one newline, or the present part
alone when either is absent. -/
theorem C7_download_concatenation (b : CertificateBundle) :
    downloadWithCrossSigned = true ∧
    combineFullCertChain b =
      (if b.certificateCrt = "" then b.caBundleCrt
       else if b.caBundleCrt = "" then b.certificateCrt
       else b.certificateCrt ++ "\n" ++ b.caBundleCrt) := by
  refine ⟨rfl, ?_⟩
  unfold combineFullCertChain
  by_cases h1 : b.certificateCrt = "" <;> by_cases h2 : b.caBundleCrt = "" <;>
    simp [h1, h2]

/-- Claim C8: the existing-request lookup returns the identifier of the
first request in encounter order whose subject matches the IP and whose
status is issued, pending_validation or draft, skipping matching
requests with any other status, and returns the empty identifier when
none qualifies. -/
theorem C8_findExisting_refines_spec (ip : String)
    (certs : List CertificateListItem) :
    findExistingCertificate ip certs = findExistingSpec ip certs := by
  induction certs with
  | nil => rfl
  | cons c rest ih =>
    by_cases h1 : c.commonName = ip
    · by_cases h2 : c.status = "issued" ∨ c.status = "pending_validation"
          ∨ c.status = "draft"
      · simp [findExistingCertificate, findExistingSpec, qualifiesForReuse,
          h1, h2, List.find?]
      · simp only [findExistingCertificate, h1, if_true, h2, if_false, ih]
        simp [findExistingSpec, qualifiesForReuse, List.find?, h1, h2]
    · simp only [findExistingCertificate, h1, if_false, ih]
      simp [findExistingSpec, qualifiesForReuse, List.find?, h1]

/-- Claim C9: with both writes succeeding, persisting writes the
certificate bytes with permission 0644 and the key bytes with
permission 0600 to their configured paths, overwriting any existing
files; the existence check then reports both files present, and
persisting the same bundle and key again returns the very same store
state. -/
theorem C9_persist_exists_idempotent (writeOk : String → Bool) (fs : FSState)
    (sslDir cert key : String)
    (hcw : writeOk (filepathJoin [sslDir, "cert.pem"]) = true)
    (hkw : writeOk (filepathJoin [sslDir, "key.pem"]) = true)
    (hne : filepathJoin [sslDir, "cert.pem"] ≠ filepathJoin [sslDir, "key.pem"]) :
    ∃ fs₂ : FSState,
      persistCertificate writeOk fs sslDir cert key = Except.ok fs₂ ∧
      fsStat fs₂ (filepathJoin [sslDir, "cert.pem"])
        = some ⟨filepathJoin [sslDir, "cert.pem"], cert, 0o644⟩ ∧
      fsStat fs₂ (filepathJoin [sslDir, "key.pem"])
        = some ⟨filepathJoin [sslDir, "key.pem"], key, 0o600⟩ ∧
      certificateFilesExist fs₂ sslDir = (true, "both files exist") ∧
      persistCertificate writeOk fs₂ sslDir cert key = Except.ok fs₂ := by
  have hne' : filepathJoin [sslDir, "key.pem"] ≠ filepathJoin [sslDir, "cert.pem"] :=
    Ne.symm hne
  refine ⟨fsWrite (fsWrite fs (filepathJoin [sslDir, "cert.pem"]) cert 0o644)
    (filepathJoin [sslDir, "key.pem"]) key 0o600, ?_, ?_, ?_, ?_, ?_⟩
  case refine_1 => simp [persistCertificate, hcw, hkw]
  all_goals
    have hfiles : (fsWrite (fsWrite fs (filepathJoin [sslDir, "cert.pem"]) cert 0o644)
        (filepathJoin [sslDir, "key.pem"]) key 0o600).files
        = ⟨filepathJoin [sslDir, "key.pem"], key, 0o600⟩
          :: ⟨filepathJoin [sslDir, "cert.pem"], cert, 0o644⟩
          :: ((fs.files.filter
                (fun e => e.path ≠ filepathJoin [sslDir, "cert.pem"])).filter
              (fun e => e.path ≠ filepathJoin [sslDir, "key.pem"])) := by
      simp only [fsWrite]
      simp [List.filter_cons, hne]
  all_goals
    have hstat1 : fsStat (fsWrite (fsWrite fs (filepathJoin [sslDir, "cert.pem"])
          cert 0o644) (filepathJoin [sslDir, "key.pem"]) key 0o600)
        (filepathJoin [sslDir, "cert.pem"])
        = some ⟨filepathJoin [sslDir, "cert.pem"], cert, 0o644⟩ := by
      unfold fsStat
      rw [hfiles]
      simp [hne']
  all_goals
    have hstat2 : fsStat (fsWrite (fsWrite fs (filepathJoin [sslDir, "cert.pem"])
          cert 0o644) (filepathJoin [sslDir, "key.pem"]) key 0o600)
        (filepathJoin [sslDir, "key.pem"])
        = some ⟨filepathJoin [sslDir, "key.pem"], key, 0o600⟩ := by
      unfold fsStat
      rw [hfiles]
      simp
  case refine_2 => exact hstat1
  case refine_3 => exact hstat2
  case refine_4 => simp [certificateFilesExist, hstat1, hstat2]
  case refine_5 =>
    simp only [persistCertificate, hcw, if_true, hkw]
    refine congrArg Except.ok ?_
    have hwfiles : ∀ (g : FSState) (p c : String) (m : Nat),
        fsWrite g p c m
          = ⟨⟨p, c, m⟩ :: g.files.filter (fun e => e.path ≠ p)⟩ :=
      fun _ _ _ _ => rfl
    have hfs2 : fsWrite (fsWrite fs (filepathJoin [sslDir, "cert.pem"]) cert 0o644)
        (filepathJoin [sslDir, "key.pem"]) key 0o600
        = ⟨⟨filepathJoin [sslDir, "key.pem"], key, 0o600⟩
            :: ⟨filepathJoin [sslDir, "cert.pem"], cert, 0o644⟩
            :: ((fs.files.filter
                  (fun e => e.path ≠ filepathJoin [sslDir, "cert.pem"])).filter
                (fun e => e.path ≠ filepathJoin [sslDir, "key.pem"]))⟩ :=
      congrArg FSState.mk hfiles
    have hstep1 : fsWrite (fsWrite (fsWrite fs (filepathJoin [sslDir, "cert.pem"])
          cert 0o644) (filepathJoin [sslDir, "key.pem"]) key 0o600)
        (filepathJoin [sslDir, "cert.pem"]) cert 0o644
        = ⟨⟨filepathJoin [sslDir, "cert.pem"], cert, 0o644⟩
            :: ⟨filepathJoin [sslDir, "key.pem"], key, 0o600⟩
            :: ((fs.files.filter
                  (fun e => e.path ≠ filepathJoin [sslDir, "cert.pem"])).filter
                (fun e => e.path ≠ filepathJoin [sslDir, "key.pem"]))⟩ := by
      rw [hwfiles, hfiles]
      congr 1
      congr 1
      rw [List.filter_cons, List.filter_cons]
      rw [if_pos (by simp [hne']), if_neg (by simp)]
      exact congrArg _ (filter_outer_absorb _ _ fs.files)
    rw [hstep1, hfs2, hwfiles]
    congr 1
    congr 1
    rw [List.filter_cons, List.filter_cons]
    rw [if_pos (by simp [hne]), if_neg (by simp)]
    exact congrArg _ (filter_idem _ _)

/-- Claim C9 witness: the theorem applied with store directory /ipssl/,
an empty store, and concrete certificate and key bytes. -/
theorem C9_persist_exists_idempotent_witness :
    ((fun _ : String => true) (filepathJoin ["/ipssl/", "cert.pem"]) = true) ∧
    (filepathJoin ["/ipssl/", "cert.pem"] ≠ filepathJoin ["/ipssl/", "key.pem"]) ∧
    (∃ fs₂ : FSState,
      persistCertificate (fun _ => true) ⟨[]⟩ "/ipssl/" "CERTPEM" "KEYPEM"
        = Except.ok fs₂ ∧
      fsStat fs₂ (filepathJoin ["/ipssl/", "cert.pem"])
        = some ⟨filepathJoin ["/ipssl/", "cert.pem"], "CERTPEM", 0o644⟩ ∧
      fsStat fs₂ (filepathJoin ["/ipssl/", "key.pem"])
        = some ⟨filepathJoin ["/ipssl/", "key.pem"], "KEYPEM", 0o600⟩ ∧
      certificateFilesExist fs₂ "/ipssl/" = (true, "both files exist") ∧
      persistCertificate (fun _ => true) fs₂ "/ipssl/" "CERTPEM" "KEYPEM"
        = Except.ok fs₂) :=
  ⟨rfl, by decide,
    C9_persist_exists_idempotent (fun _ => true) ⟨[]⟩ "/ipssl/" "CERTPEM"
      "KEYPEM" rfl rfl (by decide)⟩

/-- Claim C10: when the renewal interval and validity threshold
environment values are non-empty but malformed as durations,
configuration loading succeeds without any error and substitutes the
built-in defaults of 24 hours and 720 hours; only a missing API key can
fail the load. -/
theorem C10_malformed_durations_use_defaults (parse : String → Option Int)
    (env : String → String)
    (hkey : env "IPSSL_API_KEY" ≠ "")
    (hri : env "RENEWAL_INTERVAL" ≠ "")
    (hrip : parse (env "RENEWAL_INTERVAL") = none)
    (hcv : env "CERT_VALIDITY" ≠ "")
    (hcvp : parse (env "CERT_VALIDITY") = none) :
    Load parse env = Except.ok
      { clientIP := getEnv env "CLIENT_IP" "127.0.0.1"
        apiKey := env "IPSSL_API_KEY"
        validationDir := getEnv env "IPSSL_VALIDATION_DIR" "/usr/share/caddy/"
        sslDir := getEnv env "IPSSL_SSL_DIR" "/ipssl/"
        containerName := getEnv env "IPSSL_CONTAINER_NAME" "caddy-1"
        renewalInterval := 24 * hour
        certValidity := 720 * hour } := by
  have hk : getEnv env "IPSSL_API_KEY" "" = env "IPSSL_API_KEY" := by
    simp [getEnv, hkey]
  have hr : getDurationEnv parse env "RENEWAL_INTERVAL" (24 * hour)
      = 24 * hour := by
    simp [getDurationEnv, hri, hrip]
  have hc : getDurationEnv parse env "CERT_VALIDITY" (30 * 24 * hour)
      = 720 * hour := by
    have : (30 : Int) * 24 * hour = 720 * hour := by ring
    simp [getDurationEnv, hcv, hcvp, this]
  unfold Load
  simp only [hk, hr, hc, hkey, if_neg hkey]
  simp

/-- Claim C10 witness: the theorem applied to an environment whose
duration values are the non-empty malformed string bogus, with a parser
rejecting everything. -/
theorem C10_malformed_durations_use_defaults_witness :
    ((fun k : String => if k = "IPSSL_API_KEY" then "k" else "bogus")
        "IPSSL_API_KEY" ≠ "") ∧
    ((fun k : String => if k = "IPSSL_API_KEY" then "k" else "bogus")
        "RENEWAL_INTERVAL" ≠ "") ∧
    Load (fun _ => none)
        (fun k => if k = "IPSSL_API_KEY" then "k" else "bogus")
      = Except.ok
        { clientIP := "bogus", apiKey := "k", validationDir := "bogus",
          sslDir := "bogus", containerName := "bogus",
          renewalInterval := 24 * hour, certValidity := 720 * hour } := by
  refine ⟨by decide, by decide, ?_⟩
  have h := C10_malformed_durations_use_defaults (fun _ => none)
    (fun k => if k = "IPSSL_API_KEY" then "k" else "bogus")
    (by decide) (by decide) rfl (by decide) rfl
  simpa [getEnv] using h

end IpsslClient
